import Mathlib

/-!
# Verification of the RAG ingestion-and-retrieval pipeline

Shallow embedding of the Flask RAG application (`src/app.py`, with the earlier
variant `src/papped.py` where cited).  The LangChain / Pinecone internals called
by the handlers (text splitter, retriever, stuff-documents chain,
`PineconeVectorStore.from_documents`) are not part of the repository source;
where a claim depends on them they are modelled from the specification, as
marked by `Modelled from the spec:` doc comments.  Everything else is
translated directly from `src/app.py`.
-/

namespace Rag

/-! ## Error taxonomy (spec §7) -/

/-- Error taxonomy of spec §7: configuration errors (caller bug) versus
provider errors (Embedder / Vector Index / Generator failures). -/
inductive RagError where
  | configurationError
  | providerError
  deriving Repr, DecidableEq

/-! ## Chunker (spec §4.1) -/

/-- A chunk span over the source text: the half-open interval
`[start, stop)` of character offsets.  Spec §3: a Chunk is an ordered
substring with explicit offsets. -/
structure Chunk where
  start : Nat
  stop : Nat
  deriving Repr, DecidableEq

/-- Modelled from the spec: the sliding-window walk of §4.1 — the text
splitter (`RecursiveCharacterTextSplitter`, library code absent from `src/`)
is specified as: walk the text with a window of length `cs`, advancing by
`step = cs − overlap` each iteration; the final window is truncated to the
remaining text.  `fuel` bounds the recursion structurally; with `fuel = n`
and `0 < step` the walk always terminates before fuel runs out. -/
def chunkWalk (cs step n : Nat) : Nat → Nat → List Chunk
  | i, 0 => [⟨i, n⟩]
  | i, fuel + 1 =>
    if i + cs < n then ⟨i, i + cs⟩ :: chunkWalk cs step n (i + step) fuel
    else [⟨i, n⟩]

/-- Modelled from the spec: the chunk spans produced for a text of length
`n` with window `cs` and overlap `ov` (spec §4.1).  Empty input produces an
empty sequence, not an error. -/
def chunkSpans (cs ov n : Nat) : List Chunk :=
  if n = 0 then [] else chunkWalk cs (cs - ov) n 0 n

/-- Modelled from the spec: the Chunker contract
`chunk(text, chunk_size, overlap)` of §4.1.  Parameters are integers
(Python ints); violating `chunk_size > 0` or `0 ≤ overlap < chunk_size`
fails with a `ConfigurationError`. -/
def chunk (text : List Char) (cs ov : Int) : Except RagError (List Chunk) :=
  if cs ≤ 0 ∨ ov < 0 ∨ cs ≤ ov then .error .configurationError
  else .ok (chunkSpans cs.toNat ov.toNat text.length)

/-- The substring of `text` described by a chunk span. -/
def chunkText (text : List Char) (c : Chunk) : List Char :=
  (text.drop c.start).take (c.stop - c.start)

/-- Reassembly of chunk texts: the first chunk in full, every later chunk
with its leading `ov`-character overlap with its predecessor dropped. -/
def joinChunks (ov : Nat) : List (List Char) → List Char
  | [] => []
  | c :: rest => c ++ (rest.map (List.drop ov)).flatten

/-- Whether offset `p` lies inside chunk `c`. -/
def inChunk (p : Nat) (c : Chunk) : Bool :=
  decide (c.start ≤ p) && decide (p < c.stop)

/-! ### Walk lemmas -/

@[simp] theorem Chunk.start_mk (a b : Nat) : (Chunk.mk a b).start = a := rfl

@[simp] theorem Chunk.stop_mk (a b : Nat) : (Chunk.mk a b).stop = b := rfl

theorem chunkWalk_ne_nil (cs step n i fuel : Nat) :
    chunkWalk cs step n i fuel ≠ [] := by
  cases fuel with
  | zero => simp [chunkWalk]
  | succ fuel =>
    unfold chunkWalk
    split <;> simp

theorem chunkWalk_head_start (cs step n i fuel : Nat) :
    (chunkWalk cs step n i fuel).head?.map Chunk.start = some i := by
  cases fuel with
  | zero => simp [chunkWalk]
  | succ fuel =>
    unfold chunkWalk
    split <;> simp

theorem chunkWalk_last_stop (cs step n : Nat) :
    ∀ fuel i, (chunkWalk cs step n i fuel).getLast?.map Chunk.stop = some n := by
  intro fuel
  induction fuel with
  | zero => intro i; simp [chunkWalk]
  | succ fuel ih =>
    intro i
    unfold chunkWalk
    split
    · rcases hw : chunkWalk cs step n (i + step) fuel with _ | ⟨c, rest⟩
      · exact absurd hw (chunkWalk_ne_nil cs step n (i + step) fuel)
      · rw [List.getLast?_cons_cons]
        have h1 := ih (i + step)
        rw [hw] at h1
        exact h1
    · simp

theorem chunkWalk_start_ge (cs step n : Nat) :
    ∀ fuel i, ∀ c ∈ chunkWalk cs step n i fuel, i ≤ c.start := by
  intro fuel
  induction fuel with
  | zero =>
    intro i c hc
    simp [chunkWalk] at hc
    simp [hc]
  | succ fuel ih =>
    intro i c hc
    unfold chunkWalk at hc
    split at hc
    · rcases List.mem_cons.mp hc with h | h
      · simp [h]
      · have := ih (i + step) c h
        omega
    · simp at hc
      simp [hc]

theorem chunkWalk_stop_eq (cs step n : Nat) (hstep : 0 < step) (hsc : step ≤ cs) :
    ∀ fuel i, i < n → n ≤ i + fuel →
      ∀ c ∈ chunkWalk cs step n i fuel, c.stop = min (c.start + cs) n := by
  intro fuel
  induction fuel with
  | zero => intro i hin hfuel; omega
  | succ fuel ih =>
    intro i hin hfuel c hc
    unfold chunkWalk at hc
    split at hc
    · next h =>
      rcases List.mem_cons.mp hc with h' | h'
      · subst h'
        simp only [Chunk.start_mk, Chunk.stop_mk]
        omega
      · exact ih (i + step) (by omega) (by omega) c h'
    · next h =>
      simp at hc
      simp [hc]
      omega

theorem flatten_drop_cons (ov : Nat) (r0 : List Char) (rs : List (List Char))
    (h : ov ≤ r0.length) :
    (List.drop ov r0 :: rs).flatten = List.drop ov (r0 ++ rs.flatten) := by
  simp [List.drop_append_of_le_length h]

theorem length_chunkText (text : List Char) (c : Chunk) :
    (chunkText text c).length = min (c.stop - c.start) (text.length - c.start) := by
  simp [chunkText]

theorem chunkWalk_join (cs ov n : Nat) (hov : ov < cs) (text : List Char)
    (hn : text.length = n) :
    ∀ fuel i, i < n → n ≤ i + fuel →
      joinChunks ov ((chunkWalk cs (cs - ov) n i fuel).map (chunkText text))
        = text.drop i := by
  intro fuel
  induction fuel with
  | zero => intro i hin hfuel; omega
  | succ fuel ih =>
    intro i hin hfuel
    unfold chunkWalk
    split
    · next h =>
      rcases hw : chunkWalk cs (cs - ov) n (i + (cs - ov)) fuel with _ | ⟨w0, wtail⟩
      · exact absurd hw (chunkWalk_ne_nil cs (cs - ov) n (i + (cs - ov)) fuel)
      · have hin' : i + (cs - ov) < n := by omega
        have hfuel' : n ≤ i + (cs - ov) + fuel := by omega
        -- the head of the rest of the walk starts at `i + (cs - ov)` and is longer than `ov`
        have hw0start : w0.start = i + (cs - ov) := by
          have h1 := chunkWalk_head_start cs (cs - ov) n (i + (cs - ov)) fuel
          rw [hw] at h1
          simpa using h1
        have hw0stop : w0.stop = min (w0.start + cs) n := by
          refine chunkWalk_stop_eq cs (cs - ov) n (by omega) (by omega) fuel
            (i + (cs - ov)) hin' hfuel' w0 ?_
          rw [hw]; exact List.mem_cons_self _ _
        have hw0len : ov ≤ (chunkText text w0).length := by
          rw [length_chunkText, hn, hw0start]
          omega
        have hih := ih (i + (cs - ov)) hin' hfuel'
        rw [hw] at hih
        simp only [List.map_cons, joinChunks] at hih ⊢
        rw [flatten_drop_cons ov (chunkText text w0)
          ((wtail.map (chunkText text)).map (List.drop ov)) hw0len]
        rw [hih]
        have hdd : (text.drop (i + (cs - ov))).drop ov = text.drop (i + cs) := by
          rw [List.drop_drop]
          congr 1
          omega
        rw [hdd]
        have hct : chunkText text (Chunk.mk i (i + cs)) = (text.drop i).take cs := by
          simp [chunkText]
        rw [hct]
        have hdc : text.drop (i + cs) = (text.drop i).drop cs := by
          rw [List.drop_drop]
        rw [hdc, List.take_append_drop]
    · next h =>
      simp only [List.map_cons, List.map_nil, joinChunks]
      have hct : chunkText text (Chunk.mk i n) = text.drop i := by
        simp only [chunkText, Chunk.start_mk, Chunk.stop_mk]
        refine List.take_of_length_le ?_
        simp [hn]
      simp [hct]

theorem chunkWalk_cover (cs step n : Nat) (hstep : 0 < step) (hsc : step ≤ cs) :
    ∀ fuel i, i < n → n ≤ i + fuel → ∀ p, i ≤ p → p < n →
      ∃ c ∈ chunkWalk cs step n i fuel, c.start ≤ p ∧ p < c.stop := by
  intro fuel
  induction fuel with
  | zero => intro i hin hfuel; omega
  | succ fuel ih =>
    intro i hin hfuel p hip hpn
    unfold chunkWalk
    split
    · next h =>
      by_cases hp : p < i + step
      · exact ⟨⟨i, i + cs⟩, List.mem_cons_self _ _, by simpa using hip, by simp; omega⟩
      · obtain ⟨c, hc, h1, h2⟩ :=
          ih (i + step) (by omega) (by omega) p (by omega) hpn
        exact ⟨c, List.mem_cons_of_mem _ hc, h1, h2⟩
    · next h =>
      exact ⟨⟨i, n⟩, List.mem_cons_self _ _, by simpa using hip, by simpa using hpn⟩

theorem chunkWalk_countP_notmem (cs step n fuel i p : Nat) (hp : p < i) :
    (chunkWalk cs step n i fuel).countP (inChunk p) = 0 := by
  refine List.countP_eq_zero.mpr ?_
  intro c hc
  have := chunkWalk_start_ge cs step n fuel i c hc
  simp [inChunk]
  omega

theorem chunkWalk_countP_le_one (cs step n fuel i p : Nat) (hp : p < i + step) :
    (chunkWalk cs step n i fuel).countP (inChunk p) ≤ 1 := by
  cases fuel with
  | zero =>
    simp [chunkWalk, List.countP_cons]
    split <;> simp
  | succ fuel =>
    unfold chunkWalk
    split
    · rw [List.countP_cons, chunkWalk_countP_notmem cs step n fuel (i + step) p hp]
      split <;> simp
    · simp [List.countP_cons]
      split <;> simp

theorem chunkWalk_countP_le_two (cs step n : Nat) (h2 : cs ≤ 2 * step) :
    ∀ fuel i p, (chunkWalk cs step n i fuel).countP (inChunk p) ≤ 2 := by
  intro fuel
  induction fuel with
  | zero =>
    intro i p
    simp [chunkWalk, List.countP_cons]
    split <;> simp
  | succ fuel ih =>
    intro i p
    unfold chunkWalk
    split
    · next h =>
      rw [List.countP_cons]
      by_cases hp : p < i + step
      · rw [chunkWalk_countP_notmem cs step n fuel (i + step) p hp]
        split <;> simp
      · by_cases hmem : inChunk p ⟨i, i + cs⟩ = true
        · have hbound : p < i + cs := by
            simp [inChunk] at hmem
            omega
          have h1 := chunkWalk_countP_le_one cs step n fuel (i + step) p (by omega)
          rw [if_pos hmem]
          omega
        · simp only [hmem]
          have := ih (i + step) p
          simp only [Bool.false_eq_true, if_false]
          omega
    · next h =>
      simp [List.countP_cons]
      split <;> simp

theorem chunkWalk_chain (cs step n : Nat) :
    ∀ fuel i, List.Chain' (fun a b => b.start = a.start + step)
      (chunkWalk cs step n i fuel) := by
  intro fuel
  induction fuel with
  | zero => intro i; simp [chunkWalk]
  | succ fuel ih =>
    intro i
    unfold chunkWalk
    split
    · refine List.chain'_cons'.mpr ⟨?_, ih (i + step)⟩
      intro c hc
      have h1 := chunkWalk_head_start cs step n (i + step) fuel
      rw [hc] at h1
      simp at h1
      simp [← h1]
    · simp

theorem chunkSpans_join (cs ov : Nat) (hov : ov < cs) (text : List Char) :
    joinChunks ov ((chunkSpans cs ov text.length).map (chunkText text)) = text := by
  unfold chunkSpans
  split
  · next h =>
    simp only [List.map_nil, joinChunks]
    exact (List.length_eq_zero.mp h).symm
  · next h =>
    have hj := chunkWalk_join cs ov text.length hov text rfl text.length 0
      (by omega) (by omega)
    simpa using hj

/-! ## Pipeline model (src/app.py) -/

/-- Python's `str.endswith('.pdf')` as used in src/app.py line 216,
modelled over the character list. -/
def endsWithPdf (s : String) : Bool :=
  decide (s.toList.reverse.take 4 = ".pdf".toList.reverse)

/-- External-call events of one request, in order of occurrence. -/
inductive Effect where
  | constructIndexClient
  | loadCall
  | splitCall
  | embedCall
  | upsertRecord
  | queryCall
  | generateCall
  deriving Repr, DecidableEq

/-- A record durably stored in the Vector Index: (vector, chunk text). -/
abbrev IndexRecord := List Int × String

/-- The Vector Index state: the sequence of stored records. -/
abbrev IndexSt := List IndexRecord

/-- The upload folder contents: which file paths exist on disk. -/
abbrev FsState := String → Bool

/-- The external collaborators consumed through narrow contracts
(spec §4.2–§4.3, §6): PDF text extraction, the Embedder, a single-record
Vector Index upsert, and the generative model.  Each call is fallible. -/
structure Providers where
  loadPdf : String → Except String (List (List Char))
  embed : String → Except String (List Int)
  upsertOne : IndexRecord → IndexSt → Except String IndexSt
  generate : String → Except String String

/-- An HTTP response: status code and body (the JSON payload's message). -/
structure Response where
  status : Nat
  body : String
  deriving Repr, DecidableEq

/-- The multipart upload request: the optional `file` part. -/
structure UploadedFile where
  filename : String
  deriving Repr, DecidableEq

/-- The `/upload` request of src/app.py line 215. -/
structure UploadReq where
  file : Option UploadedFile
  deriving Repr, DecidableEq

/-- The `/chat` request body of src/app.py lines 244–245. -/
structure ChatReq where
  question : Option String
  deriving Repr, DecidableEq

/-- The chunk texts of one page under the sliding window. -/
def chunksOf (text : List Char) (cs ov : Nat) : List (List Char) :=
  (chunkSpans cs ov text.length).map (chunkText text)

/-- `text_splitter.split_documents(docs)` (src/app.py lines 226–227):
every page is chunked with the configured `chunk_size = 800`,
`chunk_overlap = 80`. -/
def splitsOf (pages : List (List Char)) : List (List Char) :=
  pages.flatMap (fun pg => chunksOf pg 800 80)

/-- Modelled from the spec: the embed-and-upsert loop performed by
`PineconeVectorStore.from_documents` (library code absent from src/): each
chunk is embedded and its record upserted in order; the loop stops at the
first provider failure, leaving earlier upserts in place (spec §4.3, §7). -/
def ingestChunks (P : Providers) : List (List Char) → IndexSt →
    Except String Unit × IndexSt × List Effect
  | [], idx => (.ok (), idx, [])
  | c :: rest, idx =>
    match P.embed (String.mk c) with
    | .error e => (.error e, idx, [.embedCall])
    | .ok v =>
      match P.upsertOne (v, String.mk c) idx with
      | .error e => (.error e, idx, [.embedCall, .upsertRecord])
      | .ok idx1 =>
        let out := ingestChunks P rest idx1
        (out.1, out.2.1, .embedCall :: .upsertRecord :: out.2.2)

/-- Modelled from the spec (§9 design note): `PineconeVectorStore.from_documents`
(called at src/app.py lines 230–235) constructs a fresh Vector Index handle
from `index_name` and the API key and then embeds and upserts every chunk. -/
def fromDocuments (P : Providers) (chunks : List (List Char)) (idx : IndexSt) :
    Except String Unit × IndexSt × List Effect :=
  let out := ingestChunks P chunks idx
  (out.1, out.2.1, Effect.constructIndexClient :: out.2.2)

/-- The `/upload` endpoint of src/app.py lines 213–239.  The upload folder
is `/tmp` (line 43); `secure_filename` (external werkzeug collaborator) is
modelled as the identity.  The `try` block maps any collaborator failure to
a 500 "Upload process failed" response without removing the saved file;
`os.remove` runs only on the success path (line 236). -/
def upload_file (P : Providers) (req : UploadReq) (fs : FsState) (idx : IndexSt) :
    Response × FsState × IndexSt × List Effect :=
  match req.file with
  | none => (⟨400, "Please provide a valid PDF prospectus."⟩, fs, idx, [])
  | some f =>
    if endsWithPdf f.filename then
      let filepath := "/tmp/" ++ f.filename
      let fs1 : FsState := fun p => if p = filepath then true else fs p
      match P.loadPdf filepath with
      | .error e => (⟨500, "Upload process failed: " ++ e⟩, fs1, idx, [.loadCall])
      | .ok pages =>
        let out := fromDocuments P (splitsOf pages) idx
        match out.1 with
        | .error e =>
          (⟨500, "Upload process failed: " ++ e⟩, fs1, out.2.1,
            .loadCall :: .splitCall :: out.2.2)
        | .ok _ =>
          let fs2 : FsState := fun p => if p = filepath then false else fs1 p
          (⟨200, "Successfully indexed " ++ f.filename ++ "! You can now ask questions."⟩,
            fs2, out.2.1, .loadCall :: .splitCall :: out.2.2)
    else (⟨400, "Please provide a valid PDF prospectus."⟩, fs, idx, [])

/-! ## Retriever and Answer Synthesizer (spec §4.3–§4.5) -/

/-- Similarity score of the model: dot product of query and record vectors. -/
def dotProduct (a b : List Int) : Int :=
  ((a.zip b).map (fun p => p.1 * p.2)).sum

/-- Insertion into a descending-score list. -/
def insertDesc (p : String × Int) : List (String × Int) → List (String × Int)
  | [] => [p]
  | q :: l => if q.2 ≤ p.2 then p :: q :: l else q :: insertDesc p l

/-- Insertion sort by descending score. -/
def sortDesc : List (String × Int) → List (String × Int)
  | [] => []
  | p :: l => insertDesc p (sortDesc l)

/-- Modelled from the spec (§4.3): the full descending-score ranking the
Vector Index computes over its records for a query vector. -/
def fullRanking (idx : IndexSt) (qv : List Int) : List (String × Int) :=
  sortDesc (idx.map (fun r => (r.2, dotProduct qv r.1)))

/-- Modelled from the spec (§4.3): `query(vector, k)`, the ranking
truncated to at most `k` results. -/
def vectorIndexQuery (idx : IndexSt) (qv : List Int) (k : Nat) : List (String × Int) :=
  (fullRanking idx qv).take k

/-- Modelled from the spec (§4.4): the Retriever embeds the question,
queries the Vector Index with fan-out `k`, and passes the ordering through
unchanged (the LangChain retriever is library code absent from src/). -/
def retrieve (embedQ : String → List Int) (idx : IndexSt) (q : String) (k : Nat) :
    List (String × Int) :=
  vectorIndexQuery idx (embedQ q) k

/-- The configured grounded-refusal message of src/app.py lines 252–253. -/
def notFoundMessage : String :=
  "I\x27m sorry, I couldn\x27t find that specific information in our prospectus. Please contact the administrative office at the college for detail."

/-- The prompt of src/app.py lines 248–259 rendered with the retrieved
passages substituted for the context slot and the question for the human
slot (spec §9: prompt templating as a pure function). -/
def renderPrompt (q : String) (passages : List String) : String :=
  "You are an official College Admission Assistant. Your role is to provide polite, professional, and accurate information about courses, fees, scholarships, and campus life based ONLY on the provided document context.\nIf the information is NOT in the document, reply: \x27"
    ++ notFoundMessage ++ "\x27\n\nContext: "
    ++ String.intercalate "\n\n" passages ++ "\n\nHuman: " ++ q

/-- The `/chat` endpoint of src/app.py lines 241–268: retrieval with
`k = 4` (line 263) over the globally constructed vectorstore handle, then
answer synthesis via the generative model; any provider failure is caught
and returned as a 500 "Assistant is busy" response.  The retrieval-chain
internals (embed the question, query, stuff the documents into the prompt,
generate) are modelled from spec §4.4–§4.5. -/
def chat (P : Providers) (idx : IndexSt) (req : ChatReq) : Response × List Effect :=
  match req.question with
  | none => (⟨500, "Assistant is busy: invalid request"⟩, [])
  | some q =>
    match P.embed q with
    | .error e => (⟨500, "Assistant is busy: " ++ e⟩, [.embedCall])
    | .ok qv =>
      let rr := vectorIndexQuery idx qv 4
      match P.generate (renderPrompt q (rr.map Prod.fst)) with
      | .error e =>
        (⟨500, "Assistant is busy: " ++ e⟩, [.embedCall, .queryCall, .generateCall])
      | .ok ans => (⟨200, ans⟩, [.embedCall, .queryCall, .generateCall])

/-- A concrete always-succeeding set of providers, used by witnesses. -/
def demoProviders : Providers where
  loadPdf := fun _ => .ok [String.toList "hello world, this is a tiny prospectus page."]
  embed := fun _ => .ok [1, 2]
  upsertOne := fun r idx => .ok (idx ++ [r])
  generate := fun _ => .ok notFoundMessage

/-- Concrete providers whose embedder emits a 1-dimensional vector. -/
def mismatchProviders : Providers where
  loadPdf := fun _ => .ok [String.toList "hello"]
  embed := fun _ => .ok [5]
  upsertOne := fun r idx => .ok (idx ++ [r])
  generate := fun _ => .ok notFoundMessage

/-- The empty upload folder. -/
def emptyFs : FsState := fun _ => false

/-! ### Pipeline lemmas -/

theorem insertDesc_length (p : String × Int) (l : List (String × Int)) :
    (insertDesc p l).length = l.length + 1 := by
  induction l with
  | nil => rfl
  | cons q l ih =>
    unfold insertDesc
    split
    · simp
    · simp [ih]

theorem sortDesc_length (l : List (String × Int)) :
    (sortDesc l).length = l.length := by
  induction l with
  | nil => rfl
  | cons p l ih => simp [sortDesc, insertDesc_length, ih]

theorem fullRanking_length (idx : IndexSt) (qv : List Int) :
    (fullRanking idx qv).length = idx.length := by
  simp [fullRanking, sortDesc_length]

theorem upload_file_eval (P : Providers) (fs : FsState) (idx : IndexSt)
    (f : UploadedFile) (hpdf : endsWithPdf f.filename = true) :
    upload_file P ⟨some f⟩ fs idx =
      (let filepath := "/tmp/" ++ f.filename
      let fs1 : FsState := fun p => if p = filepath then true else fs p
      match P.loadPdf filepath with
      | .error e => (⟨500, "Upload process failed: " ++ e⟩, fs1, idx, [.loadCall])
      | .ok pages =>
        let out := fromDocuments P (splitsOf pages) idx
        match out.1 with
        | .error e =>
          (⟨500, "Upload process failed: " ++ e⟩, fs1, out.2.1,
            .loadCall :: .splitCall :: out.2.2)
        | .ok _ =>
          let fs2 : FsState := fun p => if p = filepath then false else fs1 p
          (⟨200, "Successfully indexed " ++ f.filename ++ "! You can now ask questions."⟩,
            fs2, out.2.1, .loadCall :: .splitCall :: out.2.2)) := by
  unfold upload_file
  dsimp only
  rw [if_pos hpdf]

theorem upload_file_eval_invalid (P : Providers) (fs : FsState) (idx : IndexSt)
    (f : UploadedFile) (hpdf : endsWithPdf f.filename = false) :
    upload_file P ⟨some f⟩ fs idx
      = (⟨400, "Please provide a valid PDF prospectus."⟩, fs, idx, []) := by
  unfold upload_file
  dsimp only
  rw [if_neg]
  simp [hpdf]

theorem chat_eval (P : Providers) (idx : IndexSt) (q : String) (qv : List Int)
    (hemb : P.embed q = .ok qv) :
    chat P idx ⟨some q⟩ =
      (match P.generate (renderPrompt q ((vectorIndexQuery idx qv 4).map Prod.fst)) with
       | .error e =>
         (⟨500, "Assistant is busy: " ++ e⟩, [.embedCall, .queryCall, .generateCall])
       | .ok ans => (⟨200, ans⟩, [.embedCall, .queryCall, .generateCall])) := by
  unfold chat
  dsimp only
  rw [hemb]

theorem ingestChunks_ok_count (P : Providers) :
    ∀ (chunks : List (List Char)) (idx : IndexSt),
      (ingestChunks P chunks idx).1 = .ok () →
      (ingestChunks P chunks idx).2.2.count Effect.upsertRecord = chunks.length := by
  intro chunks
  induction chunks with
  | nil => intro idx _; rfl
  | cons c rest ih =>
    intro idx h
    unfold ingestChunks at h ⊢
    cases he : P.embed (String.mk c) with
    | error e =>
      rw [he] at h
      dsimp only at h
      exact absurd h (by simp)
    | ok v =>
      rw [he] at h
      dsimp only at h ⊢
      cases hu : P.upsertOne (v, String.mk c) idx with
      | error e =>
        rw [hu] at h
        dsimp only at h
        exact absurd h (by simp)
      | ok idx1 =>
        rw [hu] at h
        dsimp only at h ⊢
        have hrec := ih idx1 h
        simp [List.count_cons, hrec]

theorem ingestChunks_upsert_mem (P : Providers) (c0 : List Char) (rest : List (List Char))
    (idx : IndexSt) (v : List Int) (hemb : P.embed (String.mk c0) = .ok v) :
    Effect.upsertRecord ∈ (ingestChunks P (c0 :: rest) idx).2.2 := by
  unfold ingestChunks
  rw [hemb]
  cases hu : P.upsertOne (v, String.mk c0) idx <;> simp [hu]

end Rag

namespace RagClaims

open Rag

/-- Claim C1: for every input text, chunking walks the text with a sliding
window of length `chunk_size`, advancing by `chunk_size − overlap` each step,
with the final window truncated to the remaining text; in particular, for
`chunk_size = 1000`, `overlap = 100` and an input of length 2500, the
produced chunks are exactly the spans `[0,1000)`, `[900,1900)`, `[1800,2500)`. -/
theorem chunker_sliding_window (text : List Char) (cs ov : Int)
    (h1 : 0 < cs) (h2 : 0 ≤ ov) (h3 : ov < cs) :
    chunk text cs ov = .ok (chunkSpans cs.toNat ov.toNat text.length) ∧
    ((chunkSpans cs.toNat ov.toNat text.length).head?.map Chunk.start
      = if text.length = 0 then none else some 0) ∧
    (∀ c ∈ chunkSpans cs.toNat ov.toNat text.length,
      c.stop = min (c.start + cs.toNat) text.length) ∧
    List.Chain' (fun a b => b.start = a.start + (cs.toNat - ov.toNat))
      (chunkSpans cs.toNat ov.toNat text.length) ∧
    ((chunkSpans cs.toNat ov.toNat text.length).getLast?.map Chunk.stop
      = if text.length = 0 then none else some text.length) ∧
    chunkSpans 1000 100 2500 = [⟨0, 1000⟩, ⟨900, 1900⟩, ⟨1800, 2500⟩] := by
  have hcond : ¬ (cs ≤ 0 ∨ ov < 0 ∨ cs ≤ ov) := by omega
  have hC : 0 < cs.toNat := by omega
  have hO : ov.toNat < cs.toNat := by omega
  refine ⟨?_, ?_, ?_, ?_, ?_, by decide⟩
  · unfold chunk
    rw [if_neg hcond]
  · by_cases hn : text.length = 0
    · simp [chunkSpans, hn]
    · simp only [chunkSpans, if_neg hn]
      exact chunkWalk_head_start _ _ _ _ _
  · intro c hc
    rw [chunkSpans] at hc
    split at hc
    · exact absurd hc (List.not_mem_nil c)
    · next hn =>
      exact chunkWalk_stop_eq cs.toNat (cs.toNat - ov.toNat) text.length
        (by omega) (by omega) text.length 0 (by omega) (by omega) c hc
  · rw [chunkSpans]
    split
    · simp
    · exact chunkWalk_chain _ _ _ _ _
  · by_cases hn : text.length = 0
    · simp [chunkSpans, hn]
    · simp only [chunkSpans, if_neg hn]
      exact chunkWalk_last_stop _ _ _ _ _

/-- Witness for C1: the scenario chunk_size 1000, overlap 100, input of
length 2500 produces exactly the three spans of the claim. -/
theorem chunker_sliding_window_witness :
    (0 : Int) < 1000 ∧ (0 : Int) ≤ 100 ∧ (100 : Int) < 1000 ∧
    chunkSpans 1000 100 2500 = [⟨0, 1000⟩, ⟨900, 1900⟩, ⟨1800, 2500⟩] :=
  ⟨by decide, by decide, by decide,
    (chunker_sliding_window [] 1000 100 (by decide) (by decide) (by decide)).2.2.2.2.2⟩

/-- Claim C2 counterexample: with `chunk_size = 3`, `overlap = 2` (a valid
pair) and an input of length 5, offset 2 lies in three chunks, so overlapped
regions do not appear in exactly two consecutive chunks. -/
theorem chunk_coverage_counterexample :
    ¬ (∀ (text : List Char) (cs ov : Nat), 0 < cs → ov < cs →
        ∀ p, p < text.length →
          ((chunkSpans cs ov text.length).countP (inChunk p)) ≤ 2) := by
  intro h
  have hc := h (List.replicate 5 'x') 3 2 (by decide) (by decide) 2 (by decide)
  revert hc
  decide

/-- Claim C2 (amended): for every text and valid pair, concatenating the
chunk texts with each chunk's leading overlap dropped reconstructs the text
exactly, and every character is covered by some chunk; the additional
property that each position lies in at most two chunks holds whenever
`2·overlap ≤ chunk_size`. -/
theorem chunk_coverage_amended (text : List Char) (cs ov : Nat)
    (_h1 : 0 < cs) (h2 : ov < cs) :
    joinChunks ov ((chunkSpans cs ov text.length).map (chunkText text)) = text ∧
    (∀ p, p < text.length →
      ∃ c ∈ chunkSpans cs ov text.length, c.start ≤ p ∧ p < c.stop) ∧
    (2 * ov ≤ cs →
      ∀ p, (chunkSpans cs ov text.length).countP (inChunk p) ≤ 2) := by
  refine ⟨chunkSpans_join cs ov h2 text, ?_, ?_⟩
  · intro p hp
    rw [chunkSpans]
    split
    · omega
    · exact chunkWalk_cover cs (cs - ov) text.length (by omega) (by omega)
        text.length 0 (by omega) (by omega) p (by omega) hp
  · intro hhalf p
    rw [chunkSpans]
    split
    · simp
    · exact chunkWalk_countP_le_two cs (cs - ov) text.length (by omega) _ _ _

/-- Witness for the amended C2 at chunk_size 3, overlap 1 on a text of
length 7: reassembly reproduces the text. -/
theorem chunk_coverage_amended_witness :
    0 < 3 ∧ 1 < 3 ∧
    joinChunks 1 ((chunkSpans 3 1 (List.replicate 7 'x').length).map
      (chunkText (List.replicate 7 'x'))) = List.replicate 7 'x' :=
  ⟨by decide, by decide, (chunk_coverage_amended (List.replicate 7 'x') 3 1
    (by decide) (by decide)).1⟩

/-- Claim C7: calling the chunker with `chunk_size ≤ 0`, `overlap < 0` or
`overlap ≥ chunk_size` fails with a `ConfigurationError` and produces no
chunks. -/
theorem chunk_invalid_params (text : List Char) (cs ov : Int)
    (h : cs ≤ 0 ∨ ov < 0 ∨ cs ≤ ov) :
    chunk text cs ov = .error RagError.configurationError ∧
    ∀ spans, chunk text cs ov ≠ .ok spans := by
  have he : chunk text cs ov = .error RagError.configurationError := by
    unfold chunk
    rw [if_pos h]
  refine ⟨he, ?_⟩
  intro spans hspans
  rw [he] at hspans
  exact Except.noConfusion hspans

/-- Witness for C7 at `chunk_size = 0`. -/
theorem chunk_invalid_params_witness :
    ((0 : Int) ≤ 0 ∨ (0 : Int) < 0 ∨ (0 : Int) ≤ 0) ∧
    chunk [] 0 0 = .error RagError.configurationError :=
  ⟨Or.inl (by decide),
    (chunk_invalid_params [] 0 0 (Or.inl (by decide))).1⟩

end RagClaims

namespace Rag

theorem chat_eval_none (P : Providers) (idx : IndexSt) :
    chat P idx ⟨none⟩ = (⟨500, "Assistant is busy: invalid request"⟩, []) := rfl

theorem chat_eval_embed_error (P : Providers) (idx : IndexSt) (q e : String)
    (hemb : P.embed q = .error e) :
    chat P idx ⟨some q⟩ = (⟨500, "Assistant is busy: " ++ e⟩, [.embedCall]) := by
  unfold chat
  dsimp only
  rw [hemb]

end Rag

namespace RagClaims

open Rag

/-- Claim C3: `retrieve(q, k)` returns the (text, score) pairs in exactly
the order produced by the Vector Index query, truncated to at most `k`
elements, with no re-ordering or re-ranking by the Retriever; with fewer
than `k` matching records the result has that shorter length, never padded
to `k`. -/
theorem retriever_order_preserved (embedQ : String → List Int) (idx : IndexSt)
    (q : String) (k : Nat) (_hk : 0 < k) :
    retrieve embedQ idx q k = vectorIndexQuery idx (embedQ q) k ∧
    retrieve embedQ idx q k ++ (fullRanking idx (embedQ q)).drop k
      = fullRanking idx (embedQ q) ∧
    (retrieve embedQ idx q k).length = min k idx.length ∧
    (idx.length < k → (retrieve embedQ idx q k).length = idx.length) := by
  have hlen : (retrieve embedQ idx q k).length = min k idx.length := by
    simp [retrieve, vectorIndexQuery, fullRanking_length]
  refine ⟨rfl, ?_, hlen, ?_⟩
  · simp [retrieve, vectorIndexQuery]
  · intro hlt
    omega

/-- Witness for C3: the scenario `top_k = 4` with an index of 2 records
yields a result of length 2, not padded to 4. -/
theorem retriever_order_preserved_witness :
    0 < 4 ∧
    (retrieve (fun _ => [1, 0]) [([1, 0], "alpha"), ([0, 1], "beta")] "q" 4).length = 2 :=
  ⟨by decide,
    (retriever_order_preserved (fun _ => [1, 0]) [([1, 0], "alpha"), ([0, 1], "beta")]
      "q" 4 (by decide)).2.2.2 (by decide)⟩

/-- Claim C4: with an empty retrieval result the synthesizer still issues a
generation call with empty context rather than short-circuiting, and for a
generative model honouring the grounding instruction the returned answer is
exactly the configured not-found message, as a successful 200 result. -/
theorem empty_retrieval_synthesis (P : Providers) (idx : IndexSt) (q : String)
    (qv : List Int) (hemb : P.embed q = .ok qv)
    (hempty : vectorIndexQuery idx qv 4 = [])
    (hgen : P.generate (renderPrompt q []) = .ok notFoundMessage) :
    chat P idx ⟨some q⟩
      = (⟨200, notFoundMessage⟩,
         [Effect.embedCall, Effect.queryCall, Effect.generateCall]) := by
  rw [chat_eval P idx q qv hemb, hempty]
  dsimp only [List.map_nil]
  rw [hgen]

/-- Witness for C4: the scenario "What is the tuition fee?" against an
empty index returns the configured not-found message with status 200. -/
theorem empty_retrieval_synthesis_witness :
    demoProviders.embed "What is the tuition fee?" = .ok [1, 2] ∧
    vectorIndexQuery [] [1, 2] 4 = [] ∧
    chat demoProviders [] ⟨some "What is the tuition fee?"⟩
      = (⟨200, notFoundMessage⟩,
         [Effect.embedCall, Effect.queryCall, Effect.generateCall]) :=
  ⟨rfl, rfl,
    empty_retrieval_synthesis demoProviders [] "What is the tuition fee?" [1, 2]
      rfl rfl rfl⟩

/-- Claim C5: no partial-success reporting — a 200 success response implies
the loader succeeded and every chunk of the document was upserted (one
successful upsert call per chunk); otherwise the request is reported failed
with status 500. -/
theorem ingestion_no_partial_success (P : Providers) (fs : FsState) (idx : IndexSt)
    (f : UploadedFile) (hpdf : endsWithPdf f.filename = true) :
    ((upload_file P ⟨some f⟩ fs idx).1.status = 200 ∨
     (upload_file P ⟨some f⟩ fs idx).1.status = 500) ∧
    ((upload_file P ⟨some f⟩ fs idx).1.status = 200 →
      ∃ pages, P.loadPdf ("/tmp/" ++ f.filename) = .ok pages ∧
        (ingestChunks P (splitsOf pages) idx).1 = .ok () ∧
        (upload_file P ⟨some f⟩ fs idx).2.2.2.count Effect.upsertRecord
          = (splitsOf pages).length) := by
  rw [upload_file_eval P fs idx f hpdf]
  dsimp only [fromDocuments]
  cases hload : P.loadPdf ("/tmp/" ++ f.filename) with
  | error e =>
    dsimp only
    exact ⟨Or.inr rfl, fun h => absurd h (by decide)⟩
  | ok pages =>
    dsimp only
    cases hing : (ingestChunks P (splitsOf pages) idx).1 with
    | error e =>
      dsimp only
      exact ⟨Or.inr rfl, fun h => absurd h (by decide)⟩
    | ok u =>
      obtain ⟨⟩ := u
      dsimp only
      refine ⟨Or.inl rfl, fun _ => ⟨pages, rfl, hing, ?_⟩⟩
      have hc := ingestChunks_ok_count P (splitsOf pages) idx hing
      simp [List.count_cons, hc]

/-- Witness for C5 on a successful concrete ingestion: the count of upsert
calls equals the number of chunks. -/
theorem ingestion_no_partial_success_witness :
    endsWithPdf "doc.pdf" = true ∧
    ∃ pages, demoProviders.loadPdf ("/tmp/" ++ "doc.pdf") = .ok pages ∧
      (ingestChunks demoProviders (splitsOf pages) []).1 = .ok () ∧
      (upload_file demoProviders ⟨some ⟨"doc.pdf"⟩⟩ emptyFs []).2.2.2.count
        Effect.upsertRecord = (splitsOf pages).length :=
  ⟨by decide,
    (ingestion_no_partial_success demoProviders emptyFs [] ⟨"doc.pdf"⟩ (by decide)).2
      (by decide)⟩

/-- Claim C6 counterexample: with an index already holding a 3-dimensional
record, an embedder emitting a 1-dimensional vector does not make the
pipeline fail with a `ConfigurationError` before reaching the Vector
Index — the upsert call reaches the index, the mismatched record is stored,
and the request reports success. -/
theorem dimension_guard_counterexample :
    Effect.upsertRecord ∈
      (upload_file mismatchProviders ⟨some ⟨"doc.pdf"⟩⟩ emptyFs
        [([1, 2, 3], "old")]).2.2.2 ∧
    (upload_file mismatchProviders ⟨some ⟨"doc.pdf"⟩⟩ emptyFs
        [([1, 2, 3], "old")]).1.status = 200 ∧
    ([5], "hello") ∈
      (upload_file mismatchProviders ⟨some ⟨"doc.pdf"⟩⟩ emptyFs
        [([1, 2, 3], "old")]).2.2.1 := by
  refine ⟨by decide, by decide, by decide⟩

/-- Claim C6 (amended): the pipeline performs no dimensionality guard at
all — whatever vector the embedder returns for the first chunk, the upsert
call reaches the Vector Index. -/
theorem no_dimension_guard (P : Providers) (fs : FsState) (idx : IndexSt)
    (f : UploadedFile) (hpdf : endsWithPdf f.filename = true)
    (pages : List (List Char)) (hload : P.loadPdf ("/tmp/" ++ f.filename) = .ok pages)
    (c0 : List Char) (rest : List (List Char)) (hsplit : splitsOf pages = c0 :: rest)
    (v : List Int) (hemb : P.embed (String.mk c0) = .ok v) :
    Effect.upsertRecord ∈ (upload_file P ⟨some f⟩ fs idx).2.2.2 := by
  rw [upload_file_eval P fs idx f hpdf]
  dsimp only [fromDocuments]
  rw [hload]
  dsimp only
  rw [hsplit]
  have hmem := ingestChunks_upsert_mem P c0 rest idx v hemb
  cases hing : (ingestChunks P (c0 :: rest) idx).1 <;> dsimp only <;> simp [hmem]

/-- Witness for the amended C6: the concrete mismatched run reaches the
upsert. -/
theorem no_dimension_guard_witness :
    endsWithPdf "doc.pdf" = true ∧
    mismatchProviders.loadPdf ("/tmp/" ++ "doc.pdf") = .ok [String.toList "hello"] ∧
    splitsOf [String.toList "hello"] = ["hello".toList] ∧
    mismatchProviders.embed (String.mk "hello".toList) = .ok [5] ∧
    Effect.upsertRecord ∈
      (upload_file mismatchProviders ⟨some ⟨"doc.pdf"⟩⟩ emptyFs
        [([1, 2, 3], "old")]).2.2.2 :=
  ⟨by decide, rfl, by decide, rfl,
    no_dimension_guard mismatchProviders emptyFs [([1, 2, 3], "old")] ⟨"doc.pdf"⟩
      (by decide) [String.toList "hello"] rfl "hello".toList [] (by decide) [5] rfl⟩

/-- Claim C8 counterexample: a concrete ingestion request whose trace
contains a Vector Index client construction — `upload_file` calls
`PineconeVectorStore.from_documents`, which constructs a new handle per
request, so it is not the case that no request constructs a client. -/
theorem client_reuse_counterexample :
    Effect.constructIndexClient ∈
      (upload_file demoProviders ⟨some ⟨"doc.pdf"⟩⟩ emptyFs []).2.2.2 := by
  decide

/-- Claim C8 (amended): the query path of src/app.py reuses the Vector
Index handle constructed at start (no chat request ever constructs one),
but every ingestion request that reaches the indexing step constructs a
fresh Vector Index handle via `from_documents`. -/
theorem client_construction_amended (P : Providers) (idx : IndexSt) (req : ChatReq)
    (fs : FsState) (f : UploadedFile) (hpdf : endsWithPdf f.filename = true)
    (pages : List (List Char)) (hload : P.loadPdf ("/tmp/" ++ f.filename) = .ok pages) :
    Effect.constructIndexClient ∉ (chat P idx req).2 ∧
    Effect.constructIndexClient ∈ (upload_file P ⟨some f⟩ fs idx).2.2.2 := by
  constructor
  · obtain ⟨question⟩ := req
    cases question with
    | none =>
      rw [chat_eval_none]
      simp
    | some q =>
      cases hemb : P.embed q with
      | error e =>
        rw [chat_eval_embed_error P idx q e hemb]
        simp
      | ok qv =>
        rw [chat_eval P idx q qv hemb]
        cases hgen : P.generate (renderPrompt q ((vectorIndexQuery idx qv 4).map Prod.fst)) <;>
          simp [hgen]
  · rw [upload_file_eval P fs idx f hpdf]
    dsimp only [fromDocuments]
    rw [hload]
    dsimp only
    cases hing : (ingestChunks P (splitsOf pages) idx).1 <;> dsimp only <;> simp

/-- Witness for the amended C8: a concrete chat request constructs no
client, while a concrete upload request does. -/
theorem client_construction_amended_witness :
    endsWithPdf "doc.pdf" = true ∧
    demoProviders.loadPdf ("/tmp/" ++ "doc.pdf")
      = .ok [String.toList "hello world, this is a tiny prospectus page."] ∧
    (Effect.constructIndexClient ∉ (chat demoProviders [] ⟨some "hi"⟩).2 ∧
     Effect.constructIndexClient ∈
       (upload_file demoProviders ⟨some ⟨"doc.pdf"⟩⟩ emptyFs []).2.2.2) :=
  ⟨by decide, rfl,
    client_construction_amended demoProviders [] ⟨some "hi"⟩ emptyFs ⟨"doc.pdf"⟩
      (by decide) [String.toList "hello world, this is a tiny prospectus page."] rfl⟩

/-- Claim C9: an upload request with a missing file part or a filename not
ending in ".pdf" receives a 400 error response, with no chunking, no
embedding, no upsert (empty effect trace), and both the upload folder and
the Vector Index unchanged. -/
theorem invalid_upload_rejected (P : Providers) (fs : FsState) (idx : IndexSt)
    (req : UploadReq)
    (h : req.file = none ∨ ∃ f, req.file = some f ∧ endsWithPdf f.filename = false) :
    upload_file P req fs idx
      = (⟨400, "Please provide a valid PDF prospectus."⟩, fs, idx, []) := by
  obtain ⟨file⟩ := req
  rcases h with h | ⟨f, hf, hpdf⟩
  · dsimp only at h
    subst h
    rfl
  · dsimp only at hf
    subst hf
    exact upload_file_eval_invalid P fs idx f hpdf

/-- Witness for C9: a `.txt` upload is rejected with 400 and no effects. -/
theorem invalid_upload_rejected_witness :
    ((⟨some ⟨"notes.txt"⟩⟩ : UploadReq).file = none ∨
      ∃ f, (⟨some ⟨"notes.txt"⟩⟩ : UploadReq).file = some f ∧
        endsWithPdf f.filename = false) ∧
    upload_file demoProviders ⟨some ⟨"notes.txt"⟩⟩ emptyFs []
      = (⟨400, "Please provide a valid PDF prospectus."⟩, emptyFs, [], []) :=
  ⟨Or.inr ⟨⟨"notes.txt"⟩, rfl, by decide⟩,
    invalid_upload_rejected demoProviders emptyFs [] ⟨some ⟨"notes.txt"⟩⟩
      (Or.inr ⟨⟨"notes.txt"⟩, rfl, by decide⟩)⟩

/-- Claim C10: the temporary file saved during an upload is deleted on the
success path only — after a 200 response the file is gone from the upload
folder, after a 500 response (an ingestion step failed after the save) it
is still present; other paths of the folder are untouched. -/
theorem temp_file_success_only (P : Providers) (fs : FsState) (idx : IndexSt)
    (f : UploadedFile) (hpdf : endsWithPdf f.filename = true) :
    ((upload_file P ⟨some f⟩ fs idx).1.status = 200 →
      (upload_file P ⟨some f⟩ fs idx).2.1 ("/tmp/" ++ f.filename) = false) ∧
    ((upload_file P ⟨some f⟩ fs idx).1.status = 500 →
      (upload_file P ⟨some f⟩ fs idx).2.1 ("/tmp/" ++ f.filename) = true) ∧
    (∀ p, p ≠ "/tmp/" ++ f.filename →
      (upload_file P ⟨some f⟩ fs idx).2.1 p = fs p) := by
  rw [upload_file_eval P fs idx f hpdf]
  dsimp only [fromDocuments]
  cases hload : P.loadPdf ("/tmp/" ++ f.filename) with
  | error e =>
    dsimp only
    refine ⟨?_, ?_, ?_⟩
    · intro h
      exact absurd h (by decide)
    · intro _
      simp
    · intro p hp
      simp [hp]
  | ok pages =>
    dsimp only
    cases hing : (ingestChunks P (splitsOf pages) idx).1 with
    | error e =>
      dsimp only
      refine ⟨?_, ?_, ?_⟩
      · intro h
        exact absurd h (by decide)
      · intro _
        simp
      · intro p hp
        simp [hp]
    | ok u =>
      dsimp only
      refine ⟨?_, ?_, ?_⟩
      · intro _
        simp
      · intro h
        exact absurd h (by decide)
      · intro p hp
        simp [hp]

/-- Witness for C10: the concrete successful upload removes `/tmp/doc.pdf`. -/
theorem temp_file_success_only_witness :
    endsWithPdf "doc.pdf" = true ∧
    (upload_file demoProviders ⟨some ⟨"doc.pdf"⟩⟩ emptyFs []).2.1
      ("/tmp/" ++ "doc.pdf") = false :=
  ⟨by decide,
    (temp_file_success_only demoProviders emptyFs [] ⟨"doc.pdf"⟩ (by decide)).1
      (by decide)⟩

end RagClaims
